import Mathlib

/-!
Verification development for the cost-calculation core of the ServersList
repository (src/js/calculation.js, plus the server-list holder in the
unnamed companion file).

Embedding conventions:
* JavaScript numbers are embedded as rationals. The source performs only
  field arithmetic on values produced from decimal literals, so the IEEE
  double rounding of the host is idealised away; every stated equality is
  exact rational arithmetic.
* Instants (JavaScript Date values, milliseconds since an epoch) are
  embedded as integers. Local wall-clock time is embedded by a linear
  proleptic-Gregorian calendar map with a fixed UTC offset; daylight-time
  shifts are outside the model. Only differences and comparisons of
  instants are ever used, so the unknown constant offset is irrelevant.
* Strings fed to the host date parser and to the numeric coercion are
  embedded by the value the host produces for them, carried inside the
  constructors of ExpireValue and NumLike.
-/

/-- Embedding of the possible shapes of a `monthlyCost` (or `horizonDays`
or `months`) value as consumed by `toNumber` in calculation.js:
`nullish` is null or undefined, `num` a finite number, `nonFinite` is NaN
or an infinity, and `str r` is a non-number value whose string form, after
the character strip, parses to the finite number `r` (or to no finite
number when `r = none`). -/
inductive NumLike where
  | nullish : NumLike
  | num : ℚ → NumLike
  | nonFinite : NumLike
  | str : Option ℚ → NumLike
deriving DecidableEq

/-- `toNumber(value, fallback)` from calculation.js: null and undefined give
the fallback, a finite number is returned as is, and any other value is
stringified, stripped and fed to `Number`, with the fallback returned when
the result is not finite. -/
def toNumber (value : NumLike) (fallback : ℚ) : ℚ :=
  match value with
  | .nullish => fallback
  | .num q => q
  | .nonFinite => fallback
  | .str none => fallback
  | .str (some q) => q

/-- `clamp(n, min, max)` from calculation.js. -/
def clamp (n mi ma : ℚ) : ℚ :=
  min (max n mi) ma

/-- `AVG_DAYS_PER_MONTH = 365.2425 / 12` from calculation.js. -/
def AVG_DAYS_PER_MONTH : ℚ := 365.2425 / 12

/-! Model of the host (JavaScript Date) local calendar: a proleptic
Gregorian calendar mapped linearly to milliseconds. -/

/-- Gregorian leap-year test, as the host calendar implements it. -/
def isLeap (y : Int) : Bool :=
  y % 4 = 0 && (y % 100 ≠ 0 || y % 400 = 0)

/-- Number of leap years `k` with `0 ≤ k < y` (negated count for negative
`y`), so that `leapsBefore (y+1) - leapsBefore y` is 1 exactly on leap
years. -/
def leapsBefore (y : Int) : Int :=
  (y + 3) / 4 - (y + 99) / 100 + (y + 399) / 400

/-- Days from the calendar origin (Jan 1 of year 0) to Jan 1 of year `y`. -/
def daysBeforeYear (y : Int) : Int :=
  365 * y + leapsBefore y

/-- Cumulative day count before 0-based month `m` within a year. -/
def daysBeforeMonth (leap : Bool) (m : Nat) : Nat :=
  [0, 31, 59, 90, 120, 151, 181, 212, 243, 273, 304, 334].getD m 0
    + (if leap && decide (2 ≤ m) then 1 else 0)

/-- Length of 0-based month `m`. -/
def daysInMonth (leap : Bool) (m : Nat) : Nat :=
  [31, if leap then 29 else 28, 31, 30, 31, 30, 31, 31, 30, 31, 30, 31].getD m 0

/-- Local wall-clock date-time (0-based month `m`, 1-based day `d`) mapped
to milliseconds on the model local time line. -/
def civilMs (y : Int) (m d hh mi ss ms : Nat) : Int :=
  (daysBeforeYear y + (daysBeforeMonth (isLeap y) m : Int) + (d : Int) - 1) * 86400000
    + ((hh * 3600000 + mi * 60000 + ss * 1000 + ms : Nat) : Int)

/-- Embedding of the possible shapes of an `expire` value as consumed by
`parseExpireDate` in calculation.js: `falsy` is any falsy value (null,
undefined, empty string, 0); `timeString r` is a string matching the
regular expression `T\d\x7b2\x7d:\d\x7b2\x7d`, with `r` the instant the host
parser assigns to it (`none` when it is an invalid date); `plainDate y m d`
is a string of shape `YYYY-MM-DD` (1-based month `m`); `other r` is any
remaining value, with `r` the instant the generic `new Date(expire)` call
produces. -/
inductive ExpireValue where
  | falsy : ExpireValue
  | timeString : Option Int → ExpireValue
  | plainDate : Nat → Nat → Nat → ExpireValue
  | other : Option Int → ExpireValue
deriving DecidableEq

/-- Validity of a `YYYY-MM-DD` combination, as the host ISO date parser
checks it (month 1..12, day within the month). -/
def validYMD (y m d : Nat) : Bool :=
  1 ≤ m && m ≤ 12 && 1 ≤ d && d ≤ daysInMonth (isLeap (y : Int)) (m - 1)

/-- `parseExpireDate(expire)` from calculation.js: falsy values give null;
strings with an embedded time go to the host parser unchanged; plain
`YYYY-MM-DD` strings have `T23:59:59` appended before parsing, hence land
on the last whole second of that local day; everything else goes to the
generic `new Date` constructor. -/
def parseExpireDate : ExpireValue → Option Int
  | .falsy => none
  | .timeString r => r
  | .plainDate y m d =>
      if validYMD y m d then
        some (civilMs (y : Int) (m - 1) d 23 59 59 0)
      else none
  | .other r => r

/-- A server record as read by calculation.js. `name` and `id` are `none`
when the field is absent or falsy (they are only interpolated into warning
text). -/
structure Server where
  name : Option String
  id : Option String
  monthlyCost : NumLike
  expire : ExpireValue
deriving DecidableEq

/-- The label `server.name || server.id || 'unknown'` used in warning
messages. -/
def serverLabel (s : Server) : String :=
  s.name.getD (s.id.getD "unknown")

/-- The diagnostics calculation.js pushes onto `warnings`: the single
no-data message of the empty-list branch, and the per-record message
interpolating the record label and the raw `expire` value. -/
inductive Warning where
  | noData : Warning
  | unparsableExpire : String → ExpireValue → Warning
deriving DecidableEq

/-- The record returned by `calculateCostsCore`. -/
structure CoreState where
  totalCostInHorizon : ℚ
  totalDailyCostNow : ℚ
  activeServers : Nat
  warnings : List Warning
deriving DecidableEq

/-- Truncation toward zero, as `new Date(t)` applies to a non-integral
millisecond count (the TimeClip integer conversion). -/
def truncToMs (q : ℚ) : Int :=
  if q < 0 then ⌈q⌉ else ⌊q⌋

/-- The instant `new Date(now.getTime() + horizonMs)` computed by
`calculateCostsCore`, with the horizon clamp applied. -/
def horizonEndOf (now : Int) (horizonDays : NumLike) : Int :=
  truncToMs ((now : ℚ) + clamp (toNumber horizonDays 365) 1 3660 * 86400000)

/-- One iteration of the `for (const server of list)` loop in
`calculateCostsCore`, acting on the accumulated state. -/
def processServer (now horizonEnd : Int) (st : CoreState) (s : Server) : CoreState :=
  let monthlyCost := toNumber s.monthlyCost 0
  if monthlyCost ≤ 0 then st
  else
    match parseExpireDate s.expire with
    | none =>
        { st with warnings := st.warnings ++ [Warning.unparsableExpire (serverLabel s) s.expire] }
    | some expireDate =>
        let st1 :=
          if now < expireDate then
            { st with
                activeServers := st.activeServers + 1,
                totalDailyCostNow := st.totalDailyCostNow + monthlyCost / AVG_DAYS_PER_MONTH }
          else st
        let effectiveEnd := if expireDate < horizonEnd then expireDate else horizonEnd
        let remainingMs := effectiveEnd - now
        if remainingMs ≤ 0 then st1
        else
          { st1 with
              totalCostInHorizon :=
                st1.totalCostInHorizon
                  + ((remainingMs : ℚ) / 86400000) * (monthlyCost / AVG_DAYS_PER_MONTH) }

/-- `calculateCostsCore` from calculation.js. The ambient global
`serverList` is passed explicitly: `none` embeds the case where the global
is undefined or not an array (the code then falls back to the empty list),
`some l` the case where it is the array `l`. `referenceDate` is the
instant of the `referenceDate` argument. -/
def calculateCostsCore (serverList : Option (List Server)) (referenceDate : Int)
    (horizonDays : NumLike) : CoreState :=
  let list := serverList.getD []
  if list.isEmpty then
    { totalCostInHorizon := 0, totalDailyCostNow := 0, activeServers := 0,
      warnings := [Warning.noData] }
  else
    let horizonEnd := horizonEndOf referenceDate horizonDays
    list.foldl (processServer referenceDate horizonEnd)
      { totalCostInHorizon := 0, totalDailyCostNow := 0, activeServers := 0, warnings := [] }

/-- The numeric content of the record returned by `calculateCostSummary`
(the legacy flat mode). The source wraps both numbers in `formatCurrency`,
a locale string renderer carrying no further arithmetic; the embedding
keeps the numbers being rendered. -/
structure SummaryState where
  yearlyTotal : ℚ
  dailyAverage : ℚ
deriving DecidableEq

/-- `calculateCostSummary` from calculation.js: legacy flat mode, a
distinct code path from `calculateCostsCore` that never reads `expire`. -/
def calculateCostSummary (serverList : Option (List Server)) : SummaryState :=
  let list := serverList.getD []
  if list.isEmpty then
    { yearlyTotal := 0, dailyAverage := 0 }
  else
    let yearlyTotalNumber := list.foldl (fun sum s => sum + toNumber s.monthlyCost 0 * 12) 0
    { yearlyTotal := yearlyTotalNumber, dailyAverage := yearlyTotalNumber / 365 }

/-- The year and 0-based month reached `i` months after the reference
month, as `setMonth(getMonth() + i)` computes them (day of month is
already 1, so no day clamping occurs). -/
def targetOfMonths (refYear : Int) (refMonth i : Nat) : Int × Nat :=
  (refYear + ((refMonth + i) / 12 : Nat), (refMonth + i) % 12)

/-- The target instant of iteration `i` of `predictFutureCosts`: local
midnight on the first day of the month `i` months after the reference
month. -/
def targetInstant (refYear : Int) (refMonth i : Nat) : Int :=
  civilMs (targetOfMonths refYear refMonth i).1 (targetOfMonths refYear refMonth i).2 1 0 0 0 0

/-- One iteration of the inner `for (const server of list)` loop of
`predictFutureCosts`. -/
def monthCostStep (target : Int) (acc : ℚ) (s : Server) : ℚ :=
  match parseExpireDate s.expire with
  | none => acc
  | some e => if target < e then acc + toNumber s.monthlyCost 0 else acc

/-- One entry of the list returned by `predictFutureCosts`. The source
renders the target month through `toLocaleDateString` with a short
year-month format; the embedding keeps the year and 0-based month that
label renders. -/
structure Prediction where
  year : Int
  month : Nat
  cost : ℚ
deriving DecidableEq

/-- `predictFutureCosts(months)` from calculation.js. The reference year
and 0-based month are those of the ambient `new Date()` at call time; the
ambient `serverList` global is passed explicitly as in
`calculateCostsCore`. The `for (let i = 1; i <= nMonths; i++)` loop with
integer `i` and rational bound runs `⌊nMonths⌋` times since `nMonths ≥ 1`
after the clamp. -/
def predictFutureCosts (serverList : Option (List Server)) (refYear : Int) (refMonth : Nat)
    (months : NumLike) : List Prediction :=
  let list := serverList.getD []
  let nMonths := clamp (toNumber months 12) 1 120
  (List.range ⌊nMonths⌋.toNat).map (fun j =>
    let tm := targetOfMonths refYear refMonth (j + 1)
    { year := tm.1, month := tm.2,
      cost := list.foldl (monthCostStep (civilMs tm.1 tm.2 1 0 0 0 0)) 0 })

/-! Per-record characterisation of the `calculateCostsCore` loop. The four
functions below read off, from one record, its contribution to each field
of the result; the lemmas prove the loop equal to summing them. -/

/-- Contribution of one record to `totalCostInHorizon`. -/
def hContrib (now horizonEnd : Int) (s : Server) : ℚ :=
  if toNumber s.monthlyCost 0 ≤ 0 then 0
  else
    match parseExpireDate s.expire with
    | none => 0
    | some e =>
        ((max 0 (min e horizonEnd - now) : Int) : ℚ) / 86400000
          * (toNumber s.monthlyCost 0 / AVG_DAYS_PER_MONTH)

/-- Contribution of one record to `totalDailyCostNow`. -/
def dContrib (now : Int) (s : Server) : ℚ :=
  if toNumber s.monthlyCost 0 ≤ 0 then 0
  else
    match parseExpireDate s.expire with
    | none => 0
    | some e => if now < e then toNumber s.monthlyCost 0 / AVG_DAYS_PER_MONTH else 0

/-- Contribution of one record to `activeServers`. -/
def aContrib (now : Int) (s : Server) : Nat :=
  if toNumber s.monthlyCost 0 ≤ 0 then 0
  else
    match parseExpireDate s.expire with
    | none => 0
    | some e => if now < e then 1 else 0

/-- Contribution of one record to `warnings`. -/
def wContrib (s : Server) : List Warning :=
  if toNumber s.monthlyCost 0 ≤ 0 then []
  else
    match parseExpireDate s.expire with
    | none => [Warning.unparsableExpire (serverLabel s) s.expire]
    | some _ => []

theorem processServer_eq (now horizonEnd : Int) (st : CoreState) (s : Server) :
    processServer now horizonEnd st s =
      { totalCostInHorizon := st.totalCostInHorizon + hContrib now horizonEnd s,
        totalDailyCostNow := st.totalDailyCostNow + dContrib now s,
        activeServers := st.activeServers + aContrib now s,
        warnings := st.warnings ++ wContrib s } := by
  unfold processServer hContrib dContrib aContrib wContrib
  dsimp only
  by_cases h0 : toNumber s.monthlyCost 0 ≤ 0
  · simp [h0]
  · simp only [if_neg h0]
    cases hp : parseExpireDate s.expire with
    | none => simp
    | some e =>
        dsimp only
        have hminr : (if e < horizonEnd then e else horizonEnd) = min e horizonEnd := by
          split <;> omega
        rw [hminr]
        by_cases ha : now < e <;> by_cases hr : min e horizonEnd - now ≤ 0
        · rw [if_pos ha, if_pos hr,
            show max 0 (min e horizonEnd - now) = 0 from by omega]
          simp [ha]
        · rw [if_pos ha, if_neg hr,
            show max 0 (min e horizonEnd - now) = min e horizonEnd - now from by omega]
          simp [ha]
        · rw [if_neg ha, if_pos hr,
            show max 0 (min e horizonEnd - now) = 0 from by omega]
          simp [ha]
        · rw [if_neg ha, if_neg hr,
            show max 0 (min e horizonEnd - now) = min e horizonEnd - now from by omega]
          simp [ha]

theorem foldl_processServer (now horizonEnd : Int) (l : List Server) (st : CoreState) :
    l.foldl (processServer now horizonEnd) st =
      { totalCostInHorizon := st.totalCostInHorizon + (l.map (hContrib now horizonEnd)).sum,
        totalDailyCostNow := st.totalDailyCostNow + (l.map (dContrib now)).sum,
        activeServers := st.activeServers + (l.map (aContrib now)).sum,
        warnings := st.warnings ++ l.flatMap wContrib } := by
  induction l generalizing st with
  | nil => simp
  | cons s t ih =>
      rw [List.foldl_cons, processServer_eq, ih]
      simp [add_assoc]

/-- Normal form of `calculateCostsCore` on a non-empty list: every result
field is the sum (or concatenation) of per-record contributions. -/
theorem calculateCostsCore_eq (l : List Server) (hl : l ≠ []) (now : Int) (hd : NumLike) :
    calculateCostsCore (some l) now hd =
      { totalCostInHorizon := (l.map (hContrib now (horizonEndOf now hd))).sum,
        totalDailyCostNow := (l.map (dContrib now)).sum,
        activeServers := (l.map (aContrib now)).sum,
        warnings := l.flatMap wContrib } := by
  have hne : l.isEmpty = false := by simpa using hl
  unfold calculateCostsCore
  simp [hne, foldl_processServer]

/-! Monotonicity of the model calendar along successive months. -/

theorem leapsBefore_le_succ (y : Int) : leapsBefore y ≤ leapsBefore (y + 1) := by
  unfold leapsBefore
  by_cases h100 : (100 : Int) ∣ y
  · have h4 : (4 : Int) ∣ y := dvd_trans (by norm_num) h100
    omega
  · omega

theorem daysBeforeMonth_lt (leap : Bool) (r : Nat) (h : r < 11) :
    daysBeforeMonth leap r < daysBeforeMonth leap (r + 1) := by
  interval_cases r <;> cases leap <;> decide

theorem daysBeforeMonth_le (leap : Bool) (r : Nat) (h : r ≤ 11) :
    daysBeforeMonth leap r ≤ 335 := by
  interval_cases r <;> cases leap <;> decide

theorem daysBeforeMonth_zero (leap : Bool) : daysBeforeMonth leap 0 = 0 := by
  cases leap <;> rfl

/-- The instant of local midnight, day 1 of the month `t` months after
month 0 of `refYear` (0-based month arithmetic with year carry, as
`setMonth` performs it). -/
def firstOfMonthMs (refYear : Int) (t : Nat) : Int :=
  civilMs (refYear + ((t / 12 : Nat) : Int)) (t % 12) 1 0 0 0 0

theorem firstOfMonthMs_lt_succ (refY : Int) (t : Nat) :
    firstOfMonthMs refY t < firstOfMonthMs refY (t + 1) := by
  unfold firstOfMonthMs civilMs
  by_cases hr : t % 12 < 11
  · have h1 : (t + 1) / 12 = t / 12 := by omega
    have h2 : (t + 1) % 12 = t % 12 + 1 := by omega
    rw [h1, h2]
    have hm := daysBeforeMonth_lt (isLeap (refY + ((t / 12 : Nat) : Int))) (t % 12) hr
    have hm2 : ((daysBeforeMonth (isLeap (refY + ((t / 12 : Nat) : Int))) (t % 12) : Nat) : Int)
        < ((daysBeforeMonth (isLeap (refY + ((t / 12 : Nat) : Int))) (t % 12 + 1) : Nat) : Int) := by
      exact_mod_cast hm
    omega
  · have hr11 : t % 12 = 11 := by omega
    have h1 : (t + 1) / 12 = t / 12 + 1 := by omega
    have h2 : (t + 1) % 12 = 0 := by omega
    rw [h1, h2, hr11, daysBeforeMonth_zero]
    rw [show ((t / 12 + 1 : Nat) : Int) = ((t / 12 : Nat) : Int) + 1 from by push_cast; ring]
    rw [show refY + (((t / 12 : Nat) : Int) + 1) = refY + ((t / 12 : Nat) : Int) + 1 from by ring]
    have hy : daysBeforeYear (refY + ((t / 12 : Nat) : Int)) + 365
        ≤ daysBeforeYear (refY + ((t / 12 : Nat) : Int) + 1) := by
      unfold daysBeforeYear
      have := leapsBefore_le_succ (refY + ((t / 12 : Nat) : Int))
      omega
    have hm : ((daysBeforeMonth (isLeap (refY + ((t / 12 : Nat) : Int))) 11 : Nat) : Int)
        ≤ 335 := by
      exact_mod_cast daysBeforeMonth_le (isLeap (refY + ((t / 12 : Nat) : Int))) 11 (by omega)
    omega

theorem firstOfMonthMs_strictMono (refY : Int) : StrictMono (firstOfMonthMs refY) :=
  strictMono_nat_of_lt_succ (firstOfMonthMs_lt_succ refY)

theorem targetInstant_eq_firstOfMonthMs (refY : Int) (refM i : Nat) :
    targetInstant refY refM i = firstOfMonthMs refY (refM + i) := rfl

theorem targetInstant_lt (refY : Int) (refM : Nat) {i j : Nat} (h : i < j) :
    targetInstant refY refM i < targetInstant refY refM j := by
  rw [targetInstant_eq_firstOfMonthMs, targetInstant_eq_firstOfMonthMs]
  exact firstOfMonthMs_strictMono refY (by omega)

/-! Characterisation of the `predictFutureCosts` inner loop. -/

/-- Whether a record's parsable expiry lies strictly after instant `t`
(records with unparsable expiry never qualify, as the inner loop skips
them). -/
def expiryAfter (t : Int) (s : Server) : Bool :=
  match parseExpireDate s.expire with
  | none => false
  | some e => decide (t < e)

/-- The month-bucket cost: un-prorated sum of `monthlyCost` over the
records whose parsable expiry is strictly after `t`. -/
def specMonthCost (t : Int) (l : List Server) : ℚ :=
  ((l.filter (expiryAfter t)).map (fun s => toNumber s.monthlyCost 0)).sum

theorem monthCostStep_eq (t : Int) (acc : ℚ) (s : Server) :
    monthCostStep t acc s = acc + (if expiryAfter t s = true then toNumber s.monthlyCost 0 else 0) := by
  unfold monthCostStep expiryAfter
  cases hp : parseExpireDate s.expire with
  | none => simp
  | some e => by_cases h : t < e <;> simp [h]

theorem specMonthCost_cons (t : Int) (s : Server) (r : List Server) :
    specMonthCost t (s :: r) =
      (if expiryAfter t s = true then toNumber s.monthlyCost 0 else 0) + specMonthCost t r := by
  unfold specMonthCost
  rw [List.filter_cons]
  split <;> simp

theorem foldl_monthCostStep (t : Int) (l : List Server) (acc : ℚ) :
    l.foldl (monthCostStep t) acc = acc + specMonthCost t l := by
  induction l generalizing acc with
  | nil => simp [specMonthCost]
  | cons s r ih =>
      rw [List.foldl_cons, monthCostStep_eq, ih, specMonthCost_cons]
      ring

theorem specMonthCost_anti (l : List Server) (h : ∀ s ∈ l, 0 ≤ toNumber s.monthlyCost 0)
    {t u : Int} (htu : t ≤ u) : specMonthCost u l ≤ specMonthCost t l := by
  induction l with
  | nil => simp [specMonthCost]
  | cons s r ih =>
      have hs : 0 ≤ toNumber s.monthlyCost 0 := h s (by simp)
      have hr : ∀ x ∈ r, 0 ≤ toNumber x.monthlyCost 0 := fun x hx => h x (by simp [hx])
      rw [specMonthCost_cons, specMonthCost_cons]
      have himp : expiryAfter u s = true → expiryAfter t s = true := by
        unfold expiryAfter
        cases hp : parseExpireDate s.expire with
        | none => simp
        | some e => simp only [decide_eq_true_eq]; omega
      by_cases hu : expiryAfter u s = true
      · rw [if_pos hu, if_pos (himp hu)]
        exact add_le_add le_rfl (ih hr)
      · rw [if_neg hu]
        by_cases ht : expiryAfter t s = true
        · rw [if_pos ht]
          have := ih hr
          linarith
        · rw [if_neg ht]
          simpa using ih hr

theorem predictFutureCosts_length (sl : Option (List Server)) (refY : Int) (refM : Nat)
    (m : NumLike) :
    (predictFutureCosts sl refY refM m).length = ⌊clamp (toNumber m 12) 1 120⌋.toNat := by
  unfold predictFutureCosts
  simp

theorem predictFutureCosts_get (sl : Option (List Server)) (refY : Int) (refM : Nat)
    (m : NumLike) (j : Nat) (hj : j < (predictFutureCosts sl refY refM m).length) :
    (predictFutureCosts sl refY refM m).get ⟨j, hj⟩ =
      { year := (targetOfMonths refY refM (j + 1)).1,
        month := (targetOfMonths refY refM (j + 1)).2,
        cost := specMonthCost (targetInstant refY refM (j + 1)) (sl.getD []) } := by
  have hj' : j < ⌊clamp (toNumber m 12) 1 120⌋.toNat := by
    rw [← predictFutureCosts_length sl refY refM m]
    exact hj
  unfold predictFutureCosts
  simp only [List.get_eq_getElem, List.getElem_map, List.getElem_range]
  rw [foldl_monthCostStep]
  simp [targetInstant]

theorem clamp_int_cast (k mi ma : Int) :
    clamp (k : ℚ) (mi : ℚ) (ma : ℚ) = ((min (max k mi) ma : Int) : ℚ) := by
  unfold clamp
  push_cast
  rfl

theorem foldl_yearly (l : List Server) (acc : ℚ) :
    l.foldl (fun sum s => sum + toNumber s.monthlyCost 0 * 12) acc
      = acc + (l.map (fun s => toNumber s.monthlyCost 0 * 12)).sum := by
  induction l generalizing acc with
  | nil => simp
  | cons s r ih =>
      rw [List.foldl_cons, ih]
      simp [add_assoc]

/-- C4: with no list-shaped server data at all, and with an empty list,
`calculateCostsCore` raises no exception (it is a total function) and
returns the identical zeroed result carrying exactly the single no-data
warning. -/
theorem emptyOrNonList_zeroResult (now : Int) (hd : NumLike) :
    calculateCostsCore none now hd =
      { totalCostInHorizon := 0, totalDailyCostNow := 0, activeServers := 0,
        warnings := [Warning.noData] }
    ∧ calculateCostsCore (some []) now hd =
      { totalCostInHorizon := 0, totalDailyCostNow := 0, activeServers := 0,
        warnings := [Warning.noData] } :=
  ⟨rfl, rfl⟩

/-- C6: the horizon length is clamped to 1..3660 days, so horizon 0 gives
a result identical to horizon 1, and horizon 100000 one identical to
horizon 3660, for every server list (or non-list) and reference instant. -/
theorem horizonClamp_identical (sl : Option (List Server)) (now : Int) :
    calculateCostsCore sl now (.num 0) = calculateCostsCore sl now (.num 1)
    ∧ calculateCostsCore sl now (.num 100000) = calculateCostsCore sl now (.num 3660) := by
  have c0 : clamp (toNumber (.num 0) 365) 1 3660 = 1 := by
    show clamp 0 1 3660 = 1
    unfold clamp
    rw [max_eq_right (by norm_num), min_eq_left (by norm_num)]
  have c1 : clamp (toNumber (.num 1) 365) 1 3660 = 1 := by
    show clamp 1 1 3660 = 1
    unfold clamp
    rw [max_eq_right (by norm_num), min_eq_left (by norm_num)]
  have c2 : clamp (toNumber (.num 100000) 365) 1 3660 = 3660 := by
    show clamp 100000 1 3660 = 3660
    unfold clamp
    rw [max_eq_left (by norm_num), min_eq_right (by norm_num)]
  have c3 : clamp (toNumber (.num 3660) 365) 1 3660 = 3660 := by
    show clamp 3660 1 3660 = 3660
    unfold clamp
    rw [max_eq_left (by norm_num), min_eq_right (by norm_num)]
  have e1 : horizonEndOf now (.num 0) = horizonEndOf now (.num 1) := by
    unfold horizonEndOf
    rw [c0, c1]
  have e2 : horizonEndOf now (.num 100000) = horizonEndOf now (.num 3660) := by
    unfold horizonEndOf
    rw [c2, c3]
  constructor
  · unfold calculateCostsCore
    rw [e1]
  · unfold calculateCostsCore
    rw [e2]

/-- C9: the legacy flat mode `calculateCostSummary` is a distinct code path
that on every non-empty list returns yearlyTotal as the plain sum of
`monthlyCost * 12`, dailyAverage as that total divided by 365, and whose
result is unchanged by any modification of the expiry fields. -/
theorem legacyFlatMode_spec (l : List Server) (hl : l ≠ []) :
    (calculateCostSummary (some l)).yearlyTotal
        = (l.map (fun s => toNumber s.monthlyCost 0 * 12)).sum
    ∧ (calculateCostSummary (some l)).dailyAverage
        = (l.map (fun s => toNumber s.monthlyCost 0 * 12)).sum / 365
    ∧ ∀ f : Server → ExpireValue,
        calculateCostSummary (some (l.map (fun s => { s with expire := f s })))
          = calculateCostSummary (some l) := by
  have hne : l.isEmpty = false := by simpa using hl
  refine ⟨?_, ?_, ?_⟩
  · unfold calculateCostSummary
    simp [hne, foldl_yearly]
  · unfold calculateCostSummary
    simp [hne, foldl_yearly]
  · intro f
    have hne2 : (l.map (fun s => ({ s with expire := f s } : Server))).isEmpty = false := by
      cases l with
      | nil => exact absurd rfl hl
      | cons a r => simp
    unfold calculateCostSummary
    simp only [Option.getD_some, hne, hne2, Bool.false_eq_true, if_false, foldl_yearly,
      List.map_map, zero_add]
    rfl

/-- A record with a plain-date expiry on 2025-06-01. -/
def srvPlain20250601 : Server :=
  { name := some "a", id := none, monthlyCost := .num 100, expire := .plainDate 2025 6 1 }

/-- A record whose expiry string carries an explicit local-midnight time on
2025-06-01 (the instant the host assigns to `2025-06-01T00:00:00`). -/
def srvMidnight20250601 : Server :=
  { name := some "a", id := none, monthlyCost := .num 100,
    expire := .timeString (some (civilMs 2025 5 1 0 0 0 0)) }

/-- C2, counterexample: the code appends `T23:59:59` to a plain date, so the
parsed instant is the last whole second of the day (millisecond 0), not
23:59:59.999 as claimed. -/
theorem plainDate_not_999 :
    parseExpireDate (.plainDate 2025 6 1) ≠ some (civilMs 2025 5 1 23 59 59 999) := by
  decide

/-- C2, amended: a plain calendar-date expiry parses to 23:59:59.000 local
time of that day (not .999); consequently a record expiring 2025-06-01 as a
plain date is still active at 2025-06-01T10:00:00 local, while one expiring
at the 2025-06-01T00:00:00 instant is already expired then. -/
theorem plainDate_endOfDay_classification :
    (∀ y m d, validYMD y m d = true →
        parseExpireDate (.plainDate y m d) = some (civilMs (y : Int) (m - 1) d 23 59 59 0))
    ∧ (calculateCostsCore (some [srvPlain20250601])
        (civilMs 2025 5 1 10 0 0 0) (.num 365)).activeServers = 1
    ∧ (calculateCostsCore (some [srvMidnight20250601])
        (civilMs 2025 5 1 10 0 0 0) (.num 365)).activeServers = 0 := by
  refine ⟨?_, ?_, ?_⟩
  · intro y m d h
    simp only [parseExpireDate]
    rw [if_pos h]
  · rw [calculateCostsCore_eq _ (by simp) _ _]
    show ([srvPlain20250601].map (aContrib (civilMs 2025 5 1 10 0 0 0))).sum = 1
    rw [show [srvPlain20250601].map (aContrib (civilMs 2025 5 1 10 0 0 0))
        = [aContrib (civilMs 2025 5 1 10 0 0 0) srvPlain20250601] from rfl]
    rw [List.sum_singleton]
    unfold aContrib
    rw [if_neg (show ¬ toNumber srvPlain20250601.monthlyCost 0 ≤ 0 from by
      norm_num [srvPlain20250601, toNumber])]
    rw [show parseExpireDate srvPlain20250601.expire
        = some (civilMs 2025 5 1 23 59 59 0) from by decide]
    dsimp only
    rw [if_pos (show civilMs 2025 5 1 10 0 0 0 < civilMs 2025 5 1 23 59 59 0 from by decide)]
  · rw [calculateCostsCore_eq _ (by simp) _ _]
    show ([srvMidnight20250601].map (aContrib (civilMs 2025 5 1 10 0 0 0))).sum = 0
    rw [show [srvMidnight20250601].map (aContrib (civilMs 2025 5 1 10 0 0 0))
        = [aContrib (civilMs 2025 5 1 10 0 0 0) srvMidnight20250601] from rfl]
    rw [List.sum_singleton]
    unfold aContrib
    rw [if_neg (show ¬ toNumber srvMidnight20250601.monthlyCost 0 ≤ 0 from by
      norm_num [srvMidnight20250601, toNumber])]
    rw [show parseExpireDate srvMidnight20250601.expire
        = some (civilMs 2025 5 1 0 0 0 0) from by decide]
    dsimp only
    rw [if_neg (show ¬ civilMs 2025 5 1 10 0 0 0 < civilMs 2025 5 1 0 0 0 0 from by decide)]

/-- C2, witness for the amended theorem at a concrete valid date. -/
theorem plainDate_endOfDay_classification_witness :
    validYMD 2025 6 1 = true
    ∧ parseExpireDate (.plainDate 2025 6 1) = some (civilMs (2025 : Int) (6 - 1) 1 23 59 59 0) :=
  ⟨by decide, plainDate_endOfDay_classification.1 2025 6 1 (by decide)⟩

/-- The record of the pro-ration example: monthlyCost 300, expiring exactly
10 days (864000000 ms) after reference instant 0. -/
def srvTenDays : Server :=
  { name := none, id := none, monthlyCost := .num 300,
    expire := .timeString (some 864000000) }

/-- C1: the horizon total of a non-empty list is the sum of per-record
contributions; for a record with positive coerced cost and parsable expiry
the contribution is max(0, min(expiry, horizonEnd) - now) expressed in
days times monthlyCost / 30.436875, hence zero whenever the effective end
is at or before the reference instant; and the concrete single-record
example (cost 300, expiry 10 days out, horizon 365) yields a horizon total
of exactly 10 * 300 / 30.436875, a daily total of 300 / 30.436875 and one
active server. -/
theorem horizonProration_spec :
    (∀ (l : List Server) (now : Int) (hd : NumLike), l ≠ [] →
      (calculateCostsCore (some l) now hd).totalCostInHorizon
        = (l.map (hContrib now (horizonEndOf now hd))).sum)
    ∧ (∀ (now he : Int) (s : Server) (e : Int),
        0 < toNumber s.monthlyCost 0 → parseExpireDate s.expire = some e →
        hContrib now he s
          = ((max 0 (min e he - now) : Int) : ℚ) / 86400000
              * (toNumber s.monthlyCost 0 / AVG_DAYS_PER_MONTH))
    ∧ (∀ (now he : Int) (s : Server) (e : Int),
        parseExpireDate s.expire = some e → min e he ≤ now → hContrib now he s = 0)
    ∧ calculateCostsCore (some [srvTenDays]) 0 (.num 365)
        = { totalCostInHorizon := 10 * (300 / AVG_DAYS_PER_MONTH),
            totalDailyCostNow := 300 / AVG_DAYS_PER_MONTH,
            activeServers := 1,
            warnings := [] } := by
  refine ⟨?_, ?_, ?_, ?_⟩
  · intro l now hd hl
    rw [calculateCostsCore_eq l hl now hd]
  · intro now he s e hc hp
    unfold hContrib
    rw [if_neg (not_le.mpr hc), hp]
  · intro now he s e hp hle
    unfold hContrib
    by_cases hc : toNumber s.monthlyCost 0 ≤ 0
    · rw [if_pos hc]
    · rw [if_neg hc, hp]
      dsimp only
      rw [show max 0 (min e he - now) = 0 from by omega]
      norm_num
  · have hHE : horizonEndOf 0 (.num 365) = 31536000000 := by
      unfold horizonEndOf truncToMs
      rw [show toNumber (.num 365) 365 = 365 from rfl]
      rw [show clamp (365 : ℚ) 1 3660 = 365 from by
        unfold clamp
        rw [max_eq_left (by norm_num), min_eq_left (by norm_num)]]
      rw [if_neg (by norm_num)]
      norm_num
    rw [calculateCostsCore_eq _ (by simp) 0 (.num 365), hHE]
    have hh : hContrib 0 31536000000 srvTenDays = 10 * (300 / AVG_DAYS_PER_MONTH) := by
      unfold hContrib
      rw [if_neg (show ¬ toNumber srvTenDays.monthlyCost 0 ≤ 0 from by
        norm_num [srvTenDays, toNumber])]
      rw [show parseExpireDate srvTenDays.expire = some 864000000 from rfl]
      dsimp only
      rw [show min (864000000 : Int) 31536000000 = 864000000 from by decide]
      rw [show max (0 : Int) (864000000 - 0) = 864000000 from by decide]
      rw [show toNumber srvTenDays.monthlyCost 0 = 300 from rfl]
      norm_num
    have hdc : dContrib 0 srvTenDays = 300 / AVG_DAYS_PER_MONTH := by
      unfold dContrib
      rw [if_neg (show ¬ toNumber srvTenDays.monthlyCost 0 ≤ 0 from by
        norm_num [srvTenDays, toNumber])]
      rw [show parseExpireDate srvTenDays.expire = some 864000000 from rfl]
      dsimp only
      rw [if_pos (by decide : (0 : Int) < 864000000)]
      rfl
    have hac : aContrib 0 srvTenDays = 1 := by
      unfold aContrib
      rw [if_neg (show ¬ toNumber srvTenDays.monthlyCost 0 ≤ 0 from by
        norm_num [srvTenDays, toNumber])]
      rw [show parseExpireDate srvTenDays.expire = some 864000000 from rfl]
      dsimp only
      rw [if_pos (by decide : (0 : Int) < 864000000)]
    have hwc : wContrib srvTenDays = [] := by
      unfold wContrib
      rw [if_neg (show ¬ toNumber srvTenDays.monthlyCost 0 ≤ 0 from by
        norm_num [srvTenDays, toNumber])]
      rw [show parseExpireDate srvTenDays.expire = some 864000000 from rfl]
    simp [hh, hdc, hac, hwc]

/-- C1, witness: the general conjuncts applied at the concrete example. -/
theorem horizonProration_spec_witness :
    ([srvTenDays] ≠ [])
    ∧ (calculateCostsCore (some [srvTenDays]) 0 (.num 365)).totalCostInHorizon
        = ([srvTenDays].map (hContrib 0 (horizonEndOf 0 (.num 365)))).sum
    ∧ 0 < toNumber srvTenDays.monthlyCost 0
    ∧ parseExpireDate srvTenDays.expire = some 864000000
    ∧ hContrib 0 5 srvTenDays
        = ((max 0 (min 864000000 5 - 0) : Int) : ℚ) / 86400000
            * (toNumber srvTenDays.monthlyCost 0 / AVG_DAYS_PER_MONTH) :=
  ⟨by simp,
   horizonProration_spec.1 [srvTenDays] 0 (.num 365) (by simp),
   by norm_num [srvTenDays, toNumber],
   rfl,
   horizonProration_spec.2.1 0 5 srvTenDays 864000000
     (by norm_num [srvTenDays, toNumber]) rfl⟩

theorem dContrib_eq_of (now : Int) (s : Server) (h1 : 0 < toNumber s.monthlyCost 0)
    (h2 : (parseExpireDate s.expire).isSome = true) :
    dContrib now s =
      if expiryAfter now s = true then toNumber s.monthlyCost 0 / AVG_DAYS_PER_MONTH else 0 := by
  unfold dContrib expiryAfter
  rw [if_neg (not_le.mpr h1)]
  cases hp : parseExpireDate s.expire with
  | none => rw [hp] at h2; simp at h2
  | some e =>
      dsimp only
      by_cases hlt : now < e <;> simp [hlt]

theorem aContrib_eq_of (now : Int) (s : Server) (h1 : 0 < toNumber s.monthlyCost 0)
    (h2 : (parseExpireDate s.expire).isSome = true) :
    aContrib now s = if expiryAfter now s = true then 1 else 0 := by
  unfold aContrib expiryAfter
  rw [if_neg (not_le.mpr h1)]
  cases hp : parseExpireDate s.expire with
  | none => rw [hp] at h2; simp at h2
  | some e =>
      dsimp only
      by_cases hlt : now < e <;> simp [hlt]

theorem sum_dContrib_filter (now : Int) (l : List Server)
    (h : ∀ s ∈ l, 0 < toNumber s.monthlyCost 0 ∧ (parseExpireDate s.expire).isSome = true) :
    (l.map (dContrib now)).sum
      = ((l.filter (expiryAfter now)).map
          (fun s => toNumber s.monthlyCost 0 / AVG_DAYS_PER_MONTH)).sum := by
  induction l with
  | nil => simp
  | cons s r ih =>
      obtain ⟨h1, h2⟩ := h s (by simp)
      have hr : ∀ x ∈ r, 0 < toNumber x.monthlyCost 0 ∧ (parseExpireDate x.expire).isSome = true :=
        fun x hx => h x (by simp [hx])
      rw [List.map_cons, List.sum_cons, dContrib_eq_of now s h1 h2, List.filter_cons]
      by_cases he : expiryAfter now s = true
      · simp [he, ih hr]
      · simp [he, ih hr]

theorem sum_aContrib_filter (now : Int) (l : List Server)
    (h : ∀ s ∈ l, 0 < toNumber s.monthlyCost 0 ∧ (parseExpireDate s.expire).isSome = true) :
    (l.map (aContrib now)).sum = (l.filter (expiryAfter now)).length := by
  induction l with
  | nil => simp
  | cons s r ih =>
      obtain ⟨h1, h2⟩ := h s (by simp)
      have hr : ∀ x ∈ r, 0 < toNumber x.monthlyCost 0 ∧ (parseExpireDate x.expire).isSome = true :=
        fun x hx => h x (by simp [hx])
      rw [List.map_cons, List.sum_cons, aContrib_eq_of now s h1 h2, List.filter_cons]
      by_cases he : expiryAfter now s = true
      · simp [he, ih hr, Nat.add_comm]
      · simp [he, ih hr]

/-- C3: when every record has positive coerced cost and parsable expiry,
the daily total is the sum of monthlyCost / 30.436875 over exactly the
records whose expiry is strictly after the reference instant, and
activeServers is the size of that same subset. -/
theorem dailyCostNow_spec (l : List Server) (now : Int) (hd : NumLike) (hl : l ≠ [])
    (h : ∀ s ∈ l, 0 < toNumber s.monthlyCost 0 ∧ (parseExpireDate s.expire).isSome = true) :
    (calculateCostsCore (some l) now hd).totalDailyCostNow
        = ((l.filter (expiryAfter now)).map
            (fun s => toNumber s.monthlyCost 0 / AVG_DAYS_PER_MONTH)).sum
    ∧ (calculateCostsCore (some l) now hd).activeServers
        = (l.filter (expiryAfter now)).length := by
  rw [calculateCostsCore_eq l hl now hd]
  exact ⟨sum_dContrib_filter now l h, sum_aContrib_filter now l h⟩

/-- A record active at reference instant 0 (expiry instant 5). -/
def srvActive : Server :=
  { name := some "act", id := none, monthlyCost := .num 100, expire := .other (some 5) }

/-- A record already expired at reference instant 0 (expiry instant -5). -/
def srvExpired : Server :=
  { name := some "exp", id := none, monthlyCost := .num 200, expire := .other (some (-5)) }

/-- C3, witness at a concrete two-record list. -/
theorem dailyCostNow_spec_witness :
    ([srvActive, srvExpired] ≠ [])
    ∧ ((calculateCostsCore (some [srvActive, srvExpired]) 0 (.num 365)).totalDailyCostNow
        = (([srvActive, srvExpired].filter (expiryAfter 0)).map
            (fun s => toNumber s.monthlyCost 0 / AVG_DAYS_PER_MONTH)).sum
      ∧ (calculateCostsCore (some [srvActive, srvExpired]) 0 (.num 365)).activeServers
        = ([srvActive, srvExpired].filter (expiryAfter 0)).length) :=
  ⟨by simp,
   dailyCostNow_spec [srvActive, srvExpired] 0 (.num 365) (by simp)
     (by
       intro s hs
       simp only [List.mem_cons, List.mem_singleton, List.not_mem_nil, or_false] at hs
       rcases hs with rfl | rfl
       · exact ⟨by norm_num [srvActive, toNumber], rfl⟩
       · exact ⟨by norm_num [srvExpired, toNumber], rfl⟩)⟩

/-- C5: a positive-cost record with unparsable expiry leaves every numeric
aggregate exactly as if the record were absent, while the warnings list
carries, at the record's position, exactly one diagnostic naming the
record's label and raw expire value; the surrounding records are processed
as usual (the computation is a total function, so no exception can
escape). -/
theorem unparsableExpiry_warning (l1 l2 : List Server) (s : Server) (now : Int) (hd : NumLike)
    (hc : 0 < toNumber s.monthlyCost 0) (hp : parseExpireDate s.expire = none)
    (hne : l1 ++ l2 ≠ []) :
    (calculateCostsCore (some (l1 ++ s :: l2)) now hd).totalCostInHorizon
        = (calculateCostsCore (some (l1 ++ l2)) now hd).totalCostInHorizon
    ∧ (calculateCostsCore (some (l1 ++ s :: l2)) now hd).totalDailyCostNow
        = (calculateCostsCore (some (l1 ++ l2)) now hd).totalDailyCostNow
    ∧ (calculateCostsCore (some (l1 ++ s :: l2)) now hd).activeServers
        = (calculateCostsCore (some (l1 ++ l2)) now hd).activeServers
    ∧ (calculateCostsCore (some (l1 ++ s :: l2)) now hd).warnings
        = l1.flatMap wContrib
            ++ [Warning.unparsableExpire (serverLabel s) s.expire]
            ++ l2.flatMap wContrib
    ∧ (calculateCostsCore (some (l1 ++ l2)) now hd).warnings
        = l1.flatMap wContrib ++ l2.flatMap wContrib := by
  have hne2 : l1 ++ s :: l2 ≠ [] := by simp
  have hw : wContrib s = [Warning.unparsableExpire (serverLabel s) s.expire] := by
    unfold wContrib
    rw [if_neg (not_le.mpr hc), hp]
  have hh : hContrib now (horizonEndOf now hd) s = 0 := by
    unfold hContrib
    rw [if_neg (not_le.mpr hc), hp]
  have hd0 : dContrib now s = 0 := by
    unfold dContrib
    rw [if_neg (not_le.mpr hc), hp]
  have ha0 : aContrib now s = 0 := by
    unfold aContrib
    rw [if_neg (not_le.mpr hc), hp]
  rw [calculateCostsCore_eq _ hne2 now hd, calculateCostsCore_eq _ hne now hd]
  refine ⟨?_, ?_, ?_, ?_, ?_⟩ <;>
    simp [hw, hh, hd0, ha0]

/-- A record with positive cost and an unparsable expiry value. -/
def srvBadDate : Server :=
  { name := none, id := some "z", monthlyCost := .num 50, expire := .other none }

/-- C5, witness at a concrete list. -/
theorem unparsableExpiry_warning_witness :
    0 < toNumber srvBadDate.monthlyCost 0
    ∧ parseExpireDate srvBadDate.expire = none
    ∧ ([srvActive] ++ [] ≠ [])
    ∧ ((calculateCostsCore (some ([srvActive] ++ srvBadDate :: [])) 0 (.num 365)).totalCostInHorizon
        = (calculateCostsCore (some ([srvActive] ++ [])) 0 (.num 365)).totalCostInHorizon
      ∧ (calculateCostsCore (some ([srvActive] ++ srvBadDate :: [])) 0 (.num 365)).totalDailyCostNow
        = (calculateCostsCore (some ([srvActive] ++ [])) 0 (.num 365)).totalDailyCostNow
      ∧ (calculateCostsCore (some ([srvActive] ++ srvBadDate :: [])) 0 (.num 365)).activeServers
        = (calculateCostsCore (some ([srvActive] ++ [])) 0 (.num 365)).activeServers
      ∧ (calculateCostsCore (some ([srvActive] ++ srvBadDate :: [])) 0 (.num 365)).warnings
        = [srvActive].flatMap wContrib
            ++ [Warning.unparsableExpire (serverLabel srvBadDate) srvBadDate.expire]
            ++ ([] : List Server).flatMap wContrib
      ∧ (calculateCostsCore (some ([srvActive] ++ [])) 0 (.num 365)).warnings
        = [srvActive].flatMap wContrib ++ ([] : List Server).flatMap wContrib) :=
  ⟨by norm_num [srvBadDate, toNumber], rfl, by simp,
   unparsableExpiry_warning [srvActive] [] srvBadDate 0 (.num 365)
     (by norm_num [srvBadDate, toNumber]) rfl (by simp)⟩

/-- C10: a record whose coerced monthlyCost is not positive is skipped
before the expiry parse, so even with an unparsable expiry it adds no
warning and changes no aggregate (the whole result equals that of the list
without it), whereas a positive-cost record carrying the same expire value
appends exactly the one unparsable-expiry warning. -/
theorem nonPositiveCost_skipped (l1 l2 : List Server) (s sPos : Server) (now : Int)
    (hd : NumLike) (hc : toNumber s.monthlyCost 0 ≤ 0) (hp : parseExpireDate s.expire = none)
    (hne : l1 ++ l2 ≠ []) (hcPos : 0 < toNumber sPos.monthlyCost 0)
    (hsame : sPos.expire = s.expire) :
    calculateCostsCore (some (l1 ++ s :: l2)) now hd
        = calculateCostsCore (some (l1 ++ l2)) now hd
    ∧ (∀ (he : Int) (st : CoreState), processServer now he st s = st)
    ∧ (∀ (he : Int) (st : CoreState),
        processServer now he st sPos
          = { st with
              warnings := st.warnings
                ++ [Warning.unparsableExpire (serverLabel sPos) sPos.expire] }) := by
  have hpPos : parseExpireDate sPos.expire = none := by
    rw [hsame]
    exact hp
  refine ⟨?_, ?_, ?_⟩
  · have hne2 : l1 ++ s :: l2 ≠ [] := by simp
    rw [calculateCostsCore_eq _ hne2 now hd, calculateCostsCore_eq _ hne now hd]
    have hh : hContrib now (horizonEndOf now hd) s = 0 := by
      unfold hContrib
      rw [if_pos hc]
    have hd0 : dContrib now s = 0 := by
      unfold dContrib
      rw [if_pos hc]
    have ha0 : aContrib now s = 0 := by
      unfold aContrib
      rw [if_pos hc]
    have hw : wContrib s = [] := by
      unfold wContrib
      rw [if_pos hc]
    simp [hh, hd0, ha0, hw]
  · intro he st
    unfold processServer
    dsimp only
    rw [if_pos hc]
  · intro he st
    rw [processServer_eq]
    have hh : hContrib now he sPos = 0 := by
      unfold hContrib
      rw [if_neg (not_le.mpr hcPos), hpPos]
    have hd0 : dContrib now sPos = 0 := by
      unfold dContrib
      rw [if_neg (not_le.mpr hcPos), hpPos]
    have ha0 : aContrib now sPos = 0 := by
      unfold aContrib
      rw [if_neg (not_le.mpr hcPos), hpPos]
    have hw : wContrib sPos = [Warning.unparsableExpire (serverLabel sPos) sPos.expire] := by
      unfold wContrib
      rw [if_neg (not_le.mpr hcPos), hpPos]
    simp [hh, hd0, ha0, hw]

/-- A record with zero coerced cost and an unparsable expiry value. -/
def srvFreeBadDate : Server :=
  { name := none, id := some "z", monthlyCost := .num 0, expire := .other none }

/-- C10, witness at a concrete list. -/
theorem nonPositiveCost_skipped_witness :
    toNumber srvFreeBadDate.monthlyCost 0 ≤ 0
    ∧ parseExpireDate srvFreeBadDate.expire = none
    ∧ ([srvActive] ++ [] ≠ [])
    ∧ 0 < toNumber srvBadDate.monthlyCost 0
    ∧ srvBadDate.expire = srvFreeBadDate.expire
    ∧ calculateCostsCore (some ([srvActive] ++ srvFreeBadDate :: [])) 0 (.num 365)
        = calculateCostsCore (some ([srvActive] ++ [])) 0 (.num 365) :=
  ⟨by norm_num [srvFreeBadDate, toNumber], rfl, by simp,
   by norm_num [srvBadDate, toNumber], rfl,
   (nonPositiveCost_skipped [srvActive] [] srvFreeBadDate srvBadDate 0 (.num 365)
     (by norm_num [srvFreeBadDate, toNumber]) rfl (by simp)
     (by norm_num [srvBadDate, toNumber]) rfl).1⟩

theorem clamp_cast_1_120 (k : Int) :
    clamp (k : ℚ) 1 120 = ((min (max k 1) 120 : Int) : ℚ) := by
  unfold clamp
  push_cast
  rfl

/-- C7: the requested month count is clamped to 1..120 and exactly that
many entries come back, entry `j` (0-based) labelling the first day of the
month `j+1` months after the reference month and carrying the un-prorated
sum of `monthlyCost` over the records whose parsable expiry is strictly
after local midnight of that day; successive target instants strictly
increase, so the entries are in chronological order. -/
theorem forecastMonthly_spec (sl : Option (List Server)) (refY : Int) (refM : Nat) (k : Int) :
    predictFutureCosts sl refY refM (.num (k : ℚ))
        = (List.range (min (max k 1) 120).toNat).map (fun j =>
            { year := (targetOfMonths refY refM (j + 1)).1,
              month := (targetOfMonths refY refM (j + 1)).2,
              cost := specMonthCost (targetInstant refY refM (j + 1)) (sl.getD []) })
    ∧ (∀ i j : Nat, i < j →
        targetInstant refY refM (i + 1) < targetInstant refY refM (j + 1)) := by
  constructor
  · unfold predictFutureCosts
    dsimp only
    rw [show toNumber (.num (k : ℚ)) 12 = (k : ℚ) from rfl, clamp_cast_1_120, Int.floor_intCast]
    apply List.map_congr_left
    intro j hj
    dsimp only
    rw [foldl_monthCostStep, zero_add]
    rfl
  · intro i j hij
    exact targetInstant_lt refY refM (by omega)

/-- C7, witness: the chronological-order conjunct applied at concrete
indices (the list-shape conjunct has no hypothesis). -/
theorem forecastMonthly_spec_witness :
    (0 : Nat) < 1 ∧ targetInstant 2025 0 (0 + 1) < targetInstant 2025 0 (1 + 1) :=
  ⟨by decide, (forecastMonthly_spec (some [srvTenDays]) 2025 0 3).2 0 1 (by decide)⟩

/-- C8: for a list whose records all have non-negative coerced cost (the
data model admits no negative monthly cost) the forecast cost sequence is
non-increasing in the month index. -/
theorem forecastMonthly_antitone (sl : Option (List Server)) (refY : Int) (refM : Nat)
    (k : Int) (hpos : ∀ s ∈ sl.getD [], 0 ≤ toNumber s.monthlyCost 0)
    (i j : Nat) (hij : i < j)
    (hi : i < (predictFutureCosts sl refY refM (.num (k : ℚ))).length)
    (hj : j < (predictFutureCosts sl refY refM (.num (k : ℚ))).length) :
    ((predictFutureCosts sl refY refM (.num (k : ℚ))).get ⟨j, hj⟩).cost
      ≤ ((predictFutureCosts sl refY refM (.num (k : ℚ))).get ⟨i, hi⟩).cost := by
  rw [predictFutureCosts_get, predictFutureCosts_get]
  dsimp only
  exact specMonthCost_anti _ hpos (le_of_lt (targetInstant_lt refY refM (by omega)))

theorem predictTenDaysLen :
    (predictFutureCosts (some [srvTenDays]) 2025 0 (.num ((3 : Int) : ℚ))).length = 3 := by
  rw [predictFutureCosts_length]
  rw [show toNumber (.num ((3 : Int) : ℚ)) 12 = ((3 : Int) : ℚ) from rfl, clamp_cast_1_120]
  rw [Int.floor_intCast]
  decide

/-- C8, witness at a concrete list and indices. -/
theorem forecastMonthly_antitone_witness :
    0 ≤ toNumber srvTenDays.monthlyCost 0
    ∧ (0 : Nat) < 1
    ∧ ((predictFutureCosts (some [srvTenDays]) 2025 0 (.num ((3 : Int) : ℚ))).get
          ⟨1, by rw [predictTenDaysLen]; omega⟩).cost
        ≤ ((predictFutureCosts (some [srvTenDays]) 2025 0 (.num ((3 : Int) : ℚ))).get
          ⟨0, by rw [predictTenDaysLen]; omega⟩).cost :=
  ⟨by norm_num [srvTenDays, toNumber], by decide,
   forecastMonthly_antitone (some [srvTenDays]) 2025 0 3
     (by
       intro s hs
       simp only [Option.getD_some, List.mem_singleton] at hs
       subst hs
       norm_num [srvTenDays, toNumber])
     0 1 (by decide) (by rw [predictTenDaysLen]; omega) (by rw [predictTenDaysLen]; omega)⟩

/-- C9, witness at a concrete one-record list. -/
theorem legacyFlatMode_spec_witness :
    ([srvActive] ≠ [])
    ∧ (calculateCostSummary (some [srvActive])).yearlyTotal
        = ([srvActive].map (fun s => toNumber s.monthlyCost 0 * 12)).sum
    ∧ (calculateCostSummary (some [srvActive])).dailyAverage
        = ([srvActive].map (fun s => toNumber s.monthlyCost 0 * 12)).sum / 365 :=
  ⟨by simp,
   (legacyFlatMode_spec [srvActive] (by simp)).1,
   (legacyFlatMode_spec [srvActive] (by simp)).2.1⟩
